import Mathlib

/-!
Verification of libmount's `X-mount.subdir=` hookset
(`src/libmount/src/hook_subdir.c` from util-linux).

The C code is embedded shallowly: mount namespaces, per-namespace mount
tables and open namespace file descriptors form an explicit `World`;
each OS primitive is a pure state transformer that also records the
attempted call in a trace; failures of the OS primitives and of the
allocation functions are injected through a `SysEnv` record.  The hook
functions of hook_subdir.c are then translated one by one, keeping
their names and their control flow.
-/

set_option maxHeartbeats 1000000

/-! ### Constants

Values of macros used by hook_subdir.c (`mountP.h`, `libmount.h`,
`errno.h`); the headers are not among the given sources, the exact
numeric values are immaterial to the development, only distinctness
matters. -/

def MNT_RUNTIME_TOPDIR : String := "/run"

def MNT_PATH_TMPTGT : String := "/run/mount/tmptgt"

def ENOMEM : Int := 12

def EINVAL : Int := 22

def ENOSYS : Int := 38

def MNT_ERR_MOUNTOPT : Int := 5004

def MNT_ERR_APPLYFLAGS : Int := 5005

/-- The modulus of the C `size_t` type (64-bit build). -/
def USIZE : Nat := 2 ^ 64

/-! ### The world: namespaces, mounts, file descriptors, trace -/

/-- One attempted OS call, as recorded in the world's trace. -/
inductive SysAct where
  | openNs
  | unshareNs
  | mkdirP (p : String)
  | mountPriv (p : String)
  | mountBind (src : String) (tgt : Option String)
  | mountDev (src : String) (tgt : String)
  | umountAt (p : String)
  | setnsTo (fd : Int)
  | closeFd (fd : Int)
deriving DecidableEq, Repr

/-- The mount state of one mount namespace: a stack of (source,
mountpoint) entries, most recent first. -/
structure NsState where
  mounts : List (String × String) := []
deriving DecidableEq, Repr

/-- Process-wide OS state: the active mount namespace, all namespaces'
mount tables, the open namespace file descriptors, the directories that
exist, and the trace of attempted OS calls. -/
structure World where
  curNs : Nat := 0
  nsTab : List (Nat × NsState) := [(0, {})]
  nextNs : Nat := 1
  fds : List (Int × Nat) := []
  nextFd : Int := 3
  dirs : List String := []
  trace : List SysAct := []
deriving DecidableEq, Repr

def World.log (w : World) (a : SysAct) : World :=
  { w with trace := w.trace ++ [a] }

/-- First-match association lookup. -/
def assocFind {α β : Type} [DecidableEq α] (k : α) : List (α × β) → Option β
  | [] => none
  | p :: ps => if p.1 = k then some p.2 else assocFind k ps

def World.nsState (w : World) (n : Nat) : NsState :=
  (assocFind n w.nsTab).getD {}

/-- The mount table visible to the process (its current namespace). -/
def World.curState (w : World) : NsState :=
  w.nsState w.curNs

/-- Update the current namespace's mount state. -/
def World.updCur (w : World) (f : NsState → NsState) : World :=
  { w with nsTab := w.nsTab.map (fun p => if p.1 = w.curNs then (p.1, f p.2) else p) }

/-- Number of mounts stacked on mountpoint `p`. -/
def countMountsAt (s : NsState) (p : String) : Nat :=
  (s.mounts.filter (fun m => m.2 = p)).length

/-- Number of mounts stacked on the staging path in the process's
current view. -/
def World.stagingCount (w : World) : Nat :=
  countMountsAt w.curState MNT_PATH_TMPTGT

/-- Remove the most recent mount on mountpoint `p`. -/
def removeMountAt : List (String × String) → String → List (String × String)
  | [], _ => []
  | m :: ms, p => if m.2 = p then ms else m :: removeMountAt ms p

/-- How many `setns` calls a trace records (namespace-restore attempts). -/
def countSetns (tr : List SysAct) : Nat :=
  (tr.filter (fun a => match a with | .setnsTo _ => true | _ => false)).length

/-! ### OS primitives -/

/-- `open("/proc/self/ns/mnt", ...)`: a fresh fd referring to the current
namespace. -/
def sysOpenNs (w : World) : Int × World :=
  let w := w.log .openNs
  (w.nextFd, { w with fds := (w.nextFd, w.curNs) :: w.fds, nextFd := w.nextFd + 1 })

/-- `unshare(CLONE_NEWNS)`: a fresh namespace with a copy of the current
mount table; the process moves into it. -/
def sysUnshare (w : World) : World :=
  let w := w.log .unshareNs
  { w with nsTab := (w.nextNs, w.curState) :: w.nsTab, curNs := w.nextNs,
           nextNs := w.nextNs + 1 }

/-- Record a new mount of `src` on `tgt` in the current namespace. -/
def sysMountBindAdd (w : World) (src tgt : String) : World :=
  w.updCur (fun s => { s with mounts := (src, tgt) :: s.mounts })

/-- `umount(p)`: log the attempt; when `allow` holds and a mount is
stacked on `p` in the current namespace, pop the most recent one. -/
def sysUmount (w : World) (p : String) (allow : Bool) : Bool × World :=
  let w := w.log (.umountAt p)
  if allow ∧ 0 < countMountsAt w.curState p then
    (true, w.updCur (fun s => { s with mounts := removeMountAt s.mounts p }))
  else (false, w)

/-- `setns(fd, CLONE_NEWNS)`: log the attempt; when `fd` is an open
namespace fd, switch to that namespace (a stale fd fails, which the
callers ignore). -/
def sysSetns (w : World) (fd : Int) : World :=
  let w := w.log (.setnsTo fd)
  match assocFind fd w.fds with
  | some n => { w with curNs := n }
  | none => w

/-- `close(fd)`. -/
def sysClose (w : World) (fd : Int) : World :=
  let w := w.log (.closeFd fd)
  { w with fds := w.fds.filter (fun p => p.1 ≠ fd) }

/-! ### Failure injection -/

/-- Which OS calls and allocations fail in a given run.  An `Option Nat`
field is the `errno` of the corresponding call site when it fails
(`none` = the call succeeds); a `Bool` field is `true` when the
corresponding allocation or call succeeds. -/
structure SysEnv where
  ns_support : Bool := true
  open_ns_err : Option Nat := none
  unshare_err : Option Nat := none
  mkdir_err : Option Nat := none
  priv_topdir_err : Option Nat := none
  bind_self_err : Option Nat := none
  priv_tmptgt_err : Option Nat := none
  strdup_ok : Bool := true
  asprintf_ok : Bool := true
  strndup_ok : Bool := true
  alloc_hsd_ok : Bool := true
  append_ok : Bool := true
  bind_subdir_ok : Bool := true
  umount_sub_ok : Bool := true
deriving DecidableEq, Repr

/-- `rc = errno ? -errno : -EINVAL` as in tmptgt_unshare's fail label. -/
def errnoRc (e : Nat) : Int :=
  if e = 0 then -EINVAL else -(e : Int)

/-- Modelled from the spec: `ul_mkdir_p` (util-linux fileutils, not among
the given sources) idempotently creates a directory path: an existing
directory is not an error; on failure it returns a negative error
code. -/
def sysMkdirP (env : SysEnv) (w : World) (p : String) : Int × World :=
  let w := w.log (.mkdirP p)
  if p ∈ w.dirs then (0, w)
  else
    match env.mkdir_err with
    | none => (0, { w with dirs := p :: w.dirs })
    | some e => (errnoRc e, w)

/-! ### hook_subdir.c, function by function -/

/-- `tmptgt_cleanup` (hook_subdir.c lines 142-157): umount the staging
path, and when a saved namespace fd was supplied, switch back to it and
close the fd.  The umount and setns results are ignored; the function
returns 0 (or -ENOSYS when the build lacks namespace support). -/
def tmptgt_cleanup (env : SysEnv) (old_ns_fd : Int) (w : World) : Int × World :=
  if env.ns_support then
    let w := (sysUmount w MNT_PATH_TMPTGT true).2
    let w := if 0 ≤ old_ns_fd then sysClose (sysSetns w old_ns_fd) old_ns_fd else w
    (0, w)
  else (-ENOSYS, w)

/-- `tmptgt_unshare` (hook_subdir.c lines 90-137), with the out-parameter
`old_ns_fd` threaded explicitly: the result is (return code, the value
stored through the out-pointer, the world).  On entry the C code stores
-1 through the pointer; on success it stores the saved fd; the
`#else` branch returns -ENOSYS without touching the pointer. -/
def tmptgt_unshare (env : SysEnv) (old_ns_fd : Int) (w : World) : Int × Int × World :=
  if env.ns_support then
    match env.open_ns_err with
    | some e =>
      let w := w.log .openNs
      let w := (tmptgt_cleanup env (-1) w).2
      (errnoRc e, -1, w)
    | none =>
      let fdw := sysOpenNs w
      let fd := fdw.1
      let w := fdw.2
      match env.unshare_err with
      | some e =>
        let w := w.log .unshareNs
        let w := (tmptgt_cleanup env fd w).2
        (errnoRc e, -1, w)
      | none =>
        let w := sysUnshare w
        let mk := sysMkdirP env w MNT_PATH_TMPTGT
        let w := mk.2
        if mk.1 ≠ 0 then
          let w := (tmptgt_cleanup env fd w).2
          (mk.1, -1, w)
        else
          let w := w.log (.mountPriv MNT_RUNTIME_TOPDIR)
          match env.priv_topdir_err with
          | none => (0, fd, w)
          | some _ =>
            let w := w.log (.mountBind MNT_PATH_TMPTGT (some MNT_PATH_TMPTGT))
            match env.bind_self_err with
            | some e =>
              let w := (tmptgt_cleanup env fd w).2
              (errnoRc e, -1, w)
            | none =>
              let w := sysMountBindAdd w MNT_PATH_TMPTGT MNT_PATH_TMPTGT
              let w := w.log (.mountPriv MNT_PATH_TMPTGT)
              match env.priv_tmptgt_err with
              | some e =>
                let w := (tmptgt_cleanup env fd w).2
                (errnoRc e, -1, w)
              | none => (0, fd, w)
  else (-ENOSYS, old_ns_fd, w)

/-- `do_mount_subdir` (hook_subdir.c lines 159-179): bind `root/subdir`
(recursively) onto `target`, then umount `root`; both steps are
executed unconditionally, and a failure of either sets the return code
to -MNT_ERR_APPLYFLAGS.  `target` is the value of `mnt_fs_get_target`;
an absent target makes the bind syscall fail. -/
def do_mount_subdir (env : SysEnv) (root subdir : String) (target : Option String)
    (w : World) : Int × World :=
  if env.asprintf_ok then
    let src := root ++ "/" ++ subdir
    let w := w.log (.mountBind src target)
    let step1 : Int × World :=
      match target with
      | some t =>
        if env.bind_subdir_ok then ((0 : Int), sysMountBindAdd w src t)
        else (-MNT_ERR_APPLYFLAGS, w)
      | none => (-MNT_ERR_APPLYFLAGS, w)
    let um := sysUmount step1.2 root env.umount_sub_ok
    (if um.1 then step1.1 else -MNT_ERR_APPLYFLAGS, um.2)
  else (-ENOMEM, w)

/-! ### The mount context, the hookset data and the option string -/

/-- The fields of `struct libmnt_fs` that hook_subdir.c reads or writes:
the target path and the userspace option string.  The option string is
taken already tokenized into (name, value) items; a value is `none`
when the option has no `=value` part, and a present value is the raw
substring of the option string running from after the `=` to the end of
the item, quotes included. -/
structure MntFs where
  target : Option String := none
  user_optstr : Option (List (String × Option String)) := none
deriving DecidableEq, Repr

def mnt_fs_get_target (fs : Option MntFs) : Option String :=
  fs.bind (fun f => f.target)

def mnt_fs_set_target (fs : Option MntFs) (t : Option String) : Option MntFs :=
  fs.map (fun f => { f with target := t })

/-- `struct hookset_data` (hook_subdir.c lines 25-29).  `new_hookset_data`
uses `calloc`, so a fresh record has `old_ns_fd = 0`, not -1. -/
structure HookData where
  subdir : Option String := none
  org_target : Option String := none
  old_ns_fd : Int := 0
deriving DecidableEq, Repr

inductive MntAct where
  | act_mount
  | act_umount
deriving DecidableEq, Repr

/-- The stages of the dispatch engine that hook_subdir.c registers
callbacks for. -/
inductive Stage where
  | prep_target
  | mount_pre
  | mount_post
deriving DecidableEq, Repr

/-- The fields of `struct libmnt_context` the hookset touches: the
filesystem description, the action, the `MNT_MS_XFSTABCOMM` bit of
`user_mountflags`, this hookset's registered hooks (in registration
order) and this hookset's per-operation data. -/
structure MntContext where
  fs : Option MntFs := none
  action : MntAct := .act_mount
  xfstabcomm : Bool := true
  hooks : List Stage := []
  hsd : Option HookData := none
deriving DecidableEq, Repr

/-- Modelled from the spec: `mnt_optstr_get_option` (libmount optstr.c,
not among the given sources) looks up a named option among the option
string's items and yields its raw value: `none` when the option is
absent, `some none` when it is present without `=value`, and otherwise
the value substring, quotes included. -/
def mnt_optstr_get_option (items : List (String × Option String)) (nm : String) :
    Option (Option String) :=
  assocFind nm items

/-- `strndup(dir, sz)` where `dir` points into the option string and the
characters from `dir` to the terminating NUL are exactly `d`: copies at
most `sz` characters, stopping at the NUL. -/
def strndupStr (d : String) (sz : Nat) : String :=
  ⟨d.data.take sz⟩

/-- `is_subdir_required` (hook_subdir.c lines 239-268): result is
(required, `*rc`, `*subdir`).  `sz` is a C `size_t`, so the quote
adjustment `sz -= 2` wraps modulo `USIZE`; `dir++` drops the opening
quote character. -/
def is_subdir_required (env : SysEnv) (cxt_fs : Option MntFs) :
    Bool × Int × Option String :=
  match cxt_fs with
  | none => (false, 0, none)
  | some f =>
    match f.user_optstr with
    | none => (false, 0, none)
    | some items =>
      match mnt_optstr_get_option items "X-mount.subdir" with
      | none => (false, 0, none)
      | some value =>
        let dir_sz : Option String × Nat :=
          match value with
          | none => (none, 0)
          | some v =>
            match v.data with
            | c :: rest =>
              if c = '"' then (some ⟨rest⟩, (v.data.length + USIZE - 2) % USIZE)
              else (some v, v.data.length)
            | [] => (some v, 0)
        match dir_sz.1 with
        | none => (false, -MNT_ERR_MOUNTOPT, none)
        | some d =>
          if dir_sz.2 < 1 then (false, -MNT_ERR_MOUNTOPT, none)
          else if env.strndup_ok then (true, 0, some (strndupStr d dir_sz.2))
          else (false, -ENOMEM, none)

/-! ### The hook callbacks and the lifecycle -/

/-- `hook_prepare_target` (hook_subdir.c lines 272-308): the initial
callback; checks the action, the fstab/mount-table flag and the option
string; when the subdir directive is present it allocates the hookset
data, stores the subdir and registers the pre-mount hook. -/
def hook_prepare_target (env : SysEnv) (cxt : MntContext) : Int × MntContext :=
  match mnt_fs_get_target cxt.fs with
  | none => (0, cxt)
  | some _ =>
    if cxt.action = .act_mount ∧ cxt.xfstabcomm then
      let r := is_subdir_required env cxt.fs
      if r.1 then
        if env.alloc_hsd_ok then
          let cxt := { cxt with hsd := some { subdir := r.2.2, org_target := none, old_ns_fd := 0 } }
          if env.append_ok then (0, { cxt with hooks := cxt.hooks ++ [.mount_pre] })
          else (-ENOMEM, cxt)
        else (-ENOMEM, cxt)
      else (r.2.1, cxt)
    else (0, cxt)

/-- `hook_mount_pre` (hook_subdir.c lines 210-235): captures the original
target (`strdup`; a NULL result, also for an absent target, yields
-ENOMEM), enters the staging namespace, and only then rewrites the
request's target to the staging path and registers the post-mount
hook. -/
def hook_mount_pre (env : SysEnv) (cxt : MntContext) (w : World) :
    Int × MntContext × World :=
  match cxt.hsd with
  | none => (0, cxt, w)
  | some h =>
    let org := if env.strdup_ok then mnt_fs_get_target cxt.fs else none
    let h := { h with org_target := org }
    let step : Int × HookData × World :=
      if org = none then (-ENOMEM, h, w)
      else
        let r := tmptgt_unshare env h.old_ns_fd w
        (r.1, { h with old_ns_fd := r.2.1 }, r.2.2)
    let cxt := { cxt with hsd := some step.2.1 }
    if step.1 = 0 then
      let cxt := { cxt with fs := mnt_fs_set_target cxt.fs (some MNT_PATH_TMPTGT) }
      if env.append_ok then (0, { cxt with hooks := cxt.hooks ++ [.mount_post] }, step.2.2)
      else (-ENOMEM, cxt, step.2.2)
    else (step.1, cxt, step.2.2)

/-- `hook_mount_post` (hook_subdir.c lines 182-208): restores the
request's target to the original one, promotes the subdirectory with
`do_mount_subdir`, and — only when the promotion returned 0 — leaves
the staging namespace and marks the saved fd inactive; on a promotion
failure it returns immediately. -/
def hook_mount_post (env : SysEnv) (cxt : MntContext) (w : World) :
    Int × MntContext × World :=
  match cxt.hsd with
  | none => (0, cxt, w)
  | some h =>
    match h.subdir with
    | none => (0, cxt, w)
    | some sub =>
      let cxt := { cxt with fs := mnt_fs_set_target cxt.fs h.org_target }
      let r := do_mount_subdir env MNT_PATH_TMPTGT sub (mnt_fs_get_target cxt.fs) w
      if r.1 ≠ 0 then (r.1, cxt, r.2)
      else
        let w := (tmptgt_cleanup env h.old_ns_fd r.2).2
        (0, { cxt with hsd := some { h with old_ns_fd := -1 } }, w)

/-- `free_hookset_data` (hook_subdir.c lines 31-46): when the saved
namespace fd is still active (>= 0) run `tmptgt_cleanup`, then free the
strings and the record and clear the per-context slot. -/
def free_hookset_data (env : SysEnv) (cxt : MntContext) (w : World) :
    MntContext × World :=
  match cxt.hsd with
  | none => (cxt, w)
  | some h =>
    let w := if 0 ≤ h.old_ns_fd then (tmptgt_cleanup env h.old_ns_fd w).2 else w
    ({ cxt with hsd := none }, w)

/-- `hookset_init` (hook_subdir.c lines 64-70): registers the
prepare-target callback. -/
def hookset_init (env : SysEnv) (cxt : MntContext) : Int × MntContext :=
  if env.append_ok then (0, { cxt with hooks := cxt.hooks ++ [.prep_target] })
  else (-ENOMEM, cxt)

/-- `hookset_deinit` (hook_subdir.c lines 73-84): remove all of this
hookset's hooks, then free the hookset data. -/
def hookset_deinit (env : SysEnv) (cxt : MntContext) (w : World) :
    Int × MntContext × World :=
  let cxt := { cxt with hooks := [] }
  let r := free_hookset_data env cxt w
  (0, r.1, r.2)

/-- The staging teardown exactly as the promoter performs it
(hook_subdir.c lines 204-205): run `tmptgt_cleanup` on the saved fd and
clear the per-operation slot to the inactive value -1. -/
def leave_staging_and_clear (env : SysEnv) (h : HookData) (w : World) :
    Int × HookData × World :=
  let r := tmptgt_cleanup env h.old_ns_fd w
  (r.1, { h with old_ns_fd := -1 }, r.2)

/-- Modelled from the spec: between the pre-mount and the post-mount
stages the external dispatch engine performs the actual mount syscall
of the filesystem source against the request's current target. -/
def engine_mount (source : String) (cxt : MntContext) (w : World) : World :=
  match mnt_fs_get_target cxt.fs with
  | none => w
  | some t => sysMountBindAdd (w.log (.mountDev source t)) source t

/-- Modelled from the spec: the dispatch engine invokes the registered
stage callbacks in order — target preparation, pre-mount, the mount
syscall itself, post-mount — aborting as soon as a stage fails. -/
def run_pipeline (env : SysEnv) (source : String) (cxt : MntContext) (w : World) :
    Int × MntContext × World :=
  let r1 := hook_prepare_target env cxt
  if r1.1 ≠ 0 then (r1.1, r1.2, w)
  else
    let r2 :=
      if r1.2.hooks.contains .mount_pre then hook_mount_pre env r1.2 w
      else (0, r1.2, w)
    if r2.1 ≠ 0 then r2
    else
      let w2 := engine_mount source r2.2.1 r2.2.2
      if r2.2.1.hooks.contains .mount_post then hook_mount_post env r2.2.1 w2
      else (0, r2.2.1, w2)

/-- The option string does not carry the `X-mount.subdir` directive. -/
def no_subdir_directive (fs : Option MntFs) : Prop :=
  match fs with
  | none => True
  | some f =>
    match f.user_optstr with
    | none => True
    | some items => mnt_optstr_get_option items "X-mount.subdir" = none

/-! ### Concrete fixtures (used by witnesses and counterexamples) -/

def envOK : SysEnv := {}

def wInit : World := {}

/-- The end-to-end scenario of the spec: target `/mnt/data`, option
string carrying `X-mount.subdir=export`. -/
def fsData : MntFs :=
  { target := some "/mnt/data",
    user_optstr := some [("X-mount.subdir", some "export")] }

def cxtData : MntContext :=
  { fs := some fsData, hooks := [.prep_target] }

/-- Per-operation state as it stands between pre-mount and post-mount:
subdir wanted, original target saved, namespace fd 3 active. -/
def hActive : HookData :=
  { subdir := some "export", org_target := some "/mnt/data", old_ns_fd := 3 }

/-- A world as it stands between pre-mount and post-mount: the process
is in the private namespace 1, the device is mounted on the staging
path there, fd 3 refers back to namespace 0. -/
def wActive : World :=
  { curNs := 1,
    nsTab := [(0, {}), (1, { mounts := [("/dev/sdb1", MNT_PATH_TMPTGT)] })],
    nextNs := 2, fds := [(3, 0)], nextFd := 4, dirs := [MNT_PATH_TMPTGT] }

def cxtActive : MntContext :=
  { fs := some fsData, hooks := [.prep_target, .mount_pre, .mount_post],
    hsd := some hActive }

/-- A request whose option string has no `X-mount.subdir` directive. -/
def cxtNoDir : MntContext :=
  { fs := some { target := some "/mnt/x", user_optstr := some [("ro", none)] },
    hooks := [.prep_target] }

def envOpenFail : SysEnv := { open_ns_err := some 13 }

def envMkdirFail : SysEnv := { mkdir_err := some 13 }

def envBindFail : SysEnv := { bind_subdir_ok := false }

def envUnshareFail : SysEnv := { unshare_err := some 1 }

/-! ### Helper lemmas -/

theorem errnoRc_neg (e : Nat) : errnoRc e < 0 := by
  simp only [errnoRc, EINVAL]
  split <;> omega

theorem errnoRc_ne_zero (e : Nat) : errnoRc e ≠ 0 := by
  have := errnoRc_neg e
  omega

theorem countSetns_append (a b : List SysAct) :
    countSetns (a ++ b) = countSetns a + countSetns b := by
  simp [countSetns, List.filter_append]

theorem assocFind_map_upd (l : List (Nat × NsState)) (n k : Nat) (g : NsState → NsState) :
    assocFind k (l.map (fun p => if p.1 = n then (p.1, g p.2) else p))
      = if k = n then (assocFind k l).map g else assocFind k l := by
  induction l with
  | nil => simp [assocFind]
  | cons a l ih =>
    obtain ⟨a1, a2⟩ := a
    by_cases h1 : a1 = n
    · subst h1
      by_cases h2 : a1 = k
      · subst h2
        simp [assocFind, ih]
      · simp [assocFind, h2, ih]
    · by_cases h2 : a1 = k
      · subst h2
        have hkn : ¬(a1 = n) := h1
        simp [assocFind, h1, hkn]
      · simp [assocFind, h1, h2, ih]

theorem count_remove_le (l : List (String × String)) (p : String) :
    ((removeMountAt l p).filter (fun m => m.2 = p)).length
      ≤ (l.filter (fun m => m.2 = p)).length := by
  induction l with
  | nil => simp [removeMountAt]
  | cons m ms ih =>
    by_cases hm : m.2 = p
    · simp [removeMountAt, hm, List.filter_cons]
    · simp [removeMountAt, hm, List.filter_cons, ih]

theorem countMountsAt_remove_le (s : NsState) (p : String) :
    countMountsAt { s with mounts := removeMountAt s.mounts p } p ≤ countMountsAt s p := by
  simpa [countMountsAt] using count_remove_le s.mounts p

@[simp] theorem World.log_curNs (w : World) (a : SysAct) : (w.log a).curNs = w.curNs := rfl

@[simp] theorem World.log_nsTab (w : World) (a : SysAct) : (w.log a).nsTab = w.nsTab := rfl

@[simp] theorem World.log_nextNs (w : World) (a : SysAct) : (w.log a).nextNs = w.nextNs := rfl

@[simp] theorem World.log_fds (w : World) (a : SysAct) : (w.log a).fds = w.fds := rfl

@[simp] theorem World.log_nextFd (w : World) (a : SysAct) : (w.log a).nextFd = w.nextFd := rfl

@[simp] theorem World.log_dirs (w : World) (a : SysAct) : (w.log a).dirs = w.dirs := rfl

@[simp] theorem World.log_trace (w : World) (a : SysAct) :
    (w.log a).trace = w.trace ++ [a] := rfl

@[simp] theorem World.updCur_curNs (w : World) (f : NsState → NsState) :
    (w.updCur f).curNs = w.curNs := rfl

@[simp] theorem World.updCur_nextNs (w : World) (f : NsState → NsState) :
    (w.updCur f).nextNs = w.nextNs := rfl

@[simp] theorem World.updCur_fds (w : World) (f : NsState → NsState) :
    (w.updCur f).fds = w.fds := rfl

@[simp] theorem World.updCur_nextFd (w : World) (f : NsState → NsState) :
    (w.updCur f).nextFd = w.nextFd := rfl

@[simp] theorem World.updCur_dirs (w : World) (f : NsState → NsState) :
    (w.updCur f).dirs = w.dirs := rfl

@[simp] theorem World.updCur_trace (w : World) (f : NsState → NsState) :
    (w.updCur f).trace = w.trace := rfl

@[simp] theorem sysUmount_curNs (w : World) (p : String) (b : Bool) :
    (sysUmount w p b).2.curNs = w.curNs := by
  simp only [sysUmount]
  split <;> rfl

@[simp] theorem sysUmount_nextNs (w : World) (p : String) (b : Bool) :
    (sysUmount w p b).2.nextNs = w.nextNs := by
  simp only [sysUmount]
  split <;> rfl

@[simp] theorem sysUmount_fds (w : World) (p : String) (b : Bool) :
    (sysUmount w p b).2.fds = w.fds := by
  simp only [sysUmount]
  split <;> rfl

@[simp] theorem sysUmount_nextFd (w : World) (p : String) (b : Bool) :
    (sysUmount w p b).2.nextFd = w.nextFd := by
  simp only [sysUmount]
  split <;> rfl

@[simp] theorem sysUmount_dirs (w : World) (p : String) (b : Bool) :
    (sysUmount w p b).2.dirs = w.dirs := by
  simp only [sysUmount]
  split <;> rfl

@[simp] theorem sysUmount_trace (w : World) (p : String) (b : Bool) :
    (sysUmount w p b).2.trace = w.trace ++ [.umountAt p] := by
  simp only [sysUmount]
  split <;> rfl

@[simp] theorem sysSetns_nsTab (w : World) (fd : Int) : (sysSetns w fd).nsTab = w.nsTab := by
  simp only [sysSetns]
  split <;> rfl

@[simp] theorem sysSetns_fds (w : World) (fd : Int) : (sysSetns w fd).fds = w.fds := by
  simp only [sysSetns]
  split <;> rfl

@[simp] theorem sysSetns_nextNs (w : World) (fd : Int) : (sysSetns w fd).nextNs = w.nextNs := by
  simp only [sysSetns]
  split <;> rfl

@[simp] theorem sysSetns_nextFd (w : World) (fd : Int) : (sysSetns w fd).nextFd = w.nextFd := by
  simp only [sysSetns]
  split <;> rfl

@[simp] theorem sysSetns_dirs (w : World) (fd : Int) : (sysSetns w fd).dirs = w.dirs := by
  simp only [sysSetns]
  split <;> rfl

@[simp] theorem sysSetns_trace (w : World) (fd : Int) :
    (sysSetns w fd).trace = w.trace ++ [.setnsTo fd] := by
  simp only [sysSetns]
  split <;> rfl

theorem sysSetns_curNs_found (w : World) (fd : Int) (n : Nat)
    (h : assocFind fd w.fds = some n) : (sysSetns w fd).curNs = n := by
  unfold sysSetns
  simp only [World.log_fds, h]

@[simp] theorem sysClose_curNs (w : World) (fd : Int) : (sysClose w fd).curNs = w.curNs := rfl

@[simp] theorem sysClose_nsTab (w : World) (fd : Int) : (sysClose w fd).nsTab = w.nsTab := rfl

@[simp] theorem sysClose_nextNs (w : World) (fd : Int) : (sysClose w fd).nextNs = w.nextNs := rfl

@[simp] theorem sysClose_nextFd (w : World) (fd : Int) : (sysClose w fd).nextFd = w.nextFd := rfl

@[simp] theorem sysClose_dirs (w : World) (fd : Int) : (sysClose w fd).dirs = w.dirs := rfl

@[simp] theorem sysClose_trace (w : World) (fd : Int) :
    (sysClose w fd).trace = w.trace ++ [.closeFd fd] := rfl

@[simp] theorem countSetns_nil : countSetns [] = 0 := rfl

@[simp] theorem countSetns_umount (p : String) : countSetns [.umountAt p] = 0 := rfl

@[simp] theorem countSetns_setns (fd : Int) : countSetns [.setnsTo fd] = 1 := rfl

@[simp] theorem countSetns_close (fd : Int) : countSetns [.closeFd fd] = 0 := rfl

@[simp] theorem countSetns_open : countSetns [.openNs] = 0 := rfl

@[simp] theorem countSetns_unshare : countSetns [.unshareNs] = 0 := rfl

@[simp] theorem countSetns_mkdir (p : String) : countSetns [.mkdirP p] = 0 := rfl

@[simp] theorem countSetns_priv (p : String) : countSetns [.mountPriv p] = 0 := rfl

@[simp] theorem countSetns_bind (s : String) (t : Option String) :
    countSetns [.mountBind s t] = 0 := rfl

@[simp] theorem countSetns_dev (s t : String) : countSetns [.mountDev s t] = 0 := rfl

@[simp] theorem countSetns_cons_setns (fd : Int) (tr : List SysAct) :
    countSetns (.setnsTo fd :: tr) = countSetns tr + 1 := rfl

@[simp] theorem countSetns_cons_umount (p : String) (tr : List SysAct) :
    countSetns (.umountAt p :: tr) = countSetns tr := rfl

@[simp] theorem countSetns_cons_close (fd : Int) (tr : List SysAct) :
    countSetns (.closeFd fd :: tr) = countSetns tr := rfl

@[simp] theorem countSetns_cons_open (tr : List SysAct) :
    countSetns (.openNs :: tr) = countSetns tr := rfl

@[simp] theorem countSetns_cons_unshare (tr : List SysAct) :
    countSetns (.unshareNs :: tr) = countSetns tr := rfl

@[simp] theorem countSetns_cons_mkdir (p : String) (tr : List SysAct) :
    countSetns (.mkdirP p :: tr) = countSetns tr := rfl

@[simp] theorem countSetns_cons_priv (p : String) (tr : List SysAct) :
    countSetns (.mountPriv p :: tr) = countSetns tr := rfl

@[simp] theorem countSetns_cons_bind (s : String) (t : Option String) (tr : List SysAct) :
    countSetns (.mountBind s t :: tr) = countSetns tr := rfl

@[simp] theorem countSetns_cons_dev (s t : String) (tr : List SysAct) :
    countSetns (.mountDev s t :: tr) = countSetns tr := rfl

theorem neg_ENOSYS_ne_zero : -ENOSYS ≠ (0 : Int) := by decide

theorem neg_ENOMEM_ne_zero : -ENOMEM ≠ (0 : Int) := by decide

theorem is_subdir_required_absent (env : SysEnv) (fs : Option MntFs)
    (h : no_subdir_directive fs) : is_subdir_required env fs = (false, 0, none) := by
  cases fs with
  | none => rfl
  | some f =>
    cases hopt : f.user_optstr with
    | none => simp [is_subdir_required, hopt]
    | some items =>
      have h' : mnt_optstr_get_option items "X-mount.subdir" = none := by
        simpa [no_subdir_directive, hopt] using h
      simp [is_subdir_required, hopt, h']

/-! ### Claims -/

/-- C2.  Evaluation of `is_subdir_required` at the claim's inputs.
`X-mount.subdir=foo` yields subdir `foo` (also unquoting
`X-mount.subdir="foo"`), and an empty value — `X-mount.subdir=` or
`X-mount.subdir=""` — fails with `-MNT_ERR_MOUNTOPT`; but the
unterminated quote `X-mount.subdir="` is ACCEPTED with subdir `""`:
`sz` is a `size_t`, so `sz -= 2` on `sz = 1` wraps to `2^64 - 1`,
defeating the `sz < 1` malformed-option check.  This contradicts the
claim (and the spec), which say detection must fail there. -/
theorem is_subdir_required_unterminated_quote_accepted :
    is_subdir_required envOK
        (some { user_optstr := some [("X-mount.subdir", some "foo")] })
      = (true, 0, some "foo") ∧
    is_subdir_required envOK
        (some { user_optstr := some [("X-mount.subdir", some "\"foo\"")] })
      = (true, 0, some "foo") ∧
    is_subdir_required envOK
        (some { user_optstr := some [("X-mount.subdir", some "")] })
      = (false, -MNT_ERR_MOUNTOPT, none) ∧
    is_subdir_required envOK
        (some { user_optstr := some [("X-mount.subdir", some "\"\"")] })
      = (false, -MNT_ERR_MOUNTOPT, none) ∧
    is_subdir_required envOK
        (some { user_optstr := some [("X-mount.subdir", some "\"")] })
      = (true, 0, some "") := by
  refine ⟨?_, ?_, ?_, ?_, ?_⟩ <;> rfl

/-- C9.  When the option string has no `X-mount.subdir` directive, or the
action is not mount, or the mount-table invocation flag is absent,
`hook_prepare_target` is a complete no-op returning success: the
context — target, hooks, hookset data — is returned unchanged. -/
theorem hook_prepare_target_noop (env : SysEnv) (cxt : MntContext)
    (hcond : cxt.action ≠ .act_mount ∨ cxt.xfstabcomm = false ∨
      no_subdir_directive cxt.fs) :
    hook_prepare_target env cxt = (0, cxt) := by
  unfold hook_prepare_target
  cases hfs : mnt_fs_get_target cxt.fs with
  | none => rfl
  | some t =>
    by_cases hact : cxt.action = MntAct.act_mount ∧ cxt.xfstabcomm = true
    · have habs : no_subdir_directive cxt.fs := by
        rcases hcond with h | h | h
        · exact absurd hact.1 h
        · rw [h] at hact
          exact absurd hact.2 (by simp)
        · exact h
      rw [if_pos hact]
      simp [is_subdir_required_absent env cxt.fs habs]
    · rw [if_neg hact]

theorem hook_prepare_target_noop_witness :
    (cxtNoDir.action ≠ .act_mount ∨ cxtNoDir.xfstabcomm = false ∨
      no_subdir_directive cxtNoDir.fs) ∧
    hook_prepare_target envOK cxtNoDir = (0, cxtNoDir) := by
  have hdir : no_subdir_directive cxtNoDir.fs := by
    simp [no_subdir_directive, cxtNoDir, mnt_optstr_get_option, assocFind]
  exact ⟨Or.inr (Or.inr hdir),
    hook_prepare_target_noop envOK cxtNoDir (Or.inr (Or.inr hdir))⟩

/-- C10.  Without namespace support `tmptgt_unshare` fails immediately
with `-ENOSYS` (`Unsupported`) and changes nothing; and since detection
has matched (the hookset data is present), `hook_mount_pre` propagates
that `-ENOSYS` as a hard failure of the mount operation — the request's
target, the registered hooks and the world are all unmodified. -/
theorem unsupported_hard_failure (env : SysEnv) (cxt : MntContext) (w : World)
    (ofd : Int) (hns : env.ns_support = false) :
    tmptgt_unshare env ofd w = (-ENOSYS, ofd, w) ∧
    (∀ h t, cxt.hsd = some h → env.strdup_ok = true →
      mnt_fs_get_target cxt.fs = some t →
      (hook_mount_pre env cxt w).1 = -ENOSYS ∧
      mnt_fs_get_target (hook_mount_pre env cxt w).2.1.fs = some t ∧
      (hook_mount_pre env cxt w).2.1.hooks = cxt.hooks ∧
      (hook_mount_pre env cxt w).2.2 = w) := by
  have hU : ∀ fd w', tmptgt_unshare env fd w' = (-ENOSYS, fd, w') := by
    intro fd w'
    unfold tmptgt_unshare
    simp [hns]
  refine ⟨hU ofd w, ?_⟩
  intro h t hh hs ht
  unfold hook_mount_pre
  simp [hh, hs, ht, hU, ENOSYS]

theorem unsupported_hard_failure_witness :
    ({ ns_support := false : SysEnv }.ns_support = false) ∧
    (cxtActive.hsd = some hActive) ∧
    (mnt_fs_get_target cxtActive.fs = some "/mnt/data") ∧
    tmptgt_unshare { ns_support := false } 5 wActive = (-ENOSYS, 5, wActive) ∧
    (hook_mount_pre { ns_support := false } cxtActive wActive).1 = -ENOSYS ∧
    mnt_fs_get_target
        (hook_mount_pre { ns_support := false } cxtActive wActive).2.1.fs
      = some "/mnt/data" ∧
    (hook_mount_pre { ns_support := false } cxtActive wActive).2.1.hooks
      = cxtActive.hooks ∧
    (hook_mount_pre { ns_support := false } cxtActive wActive).2.2 = wActive := by
  have H := unsupported_hard_failure { ns_support := false } cxtActive wActive 5 rfl
  have H2 := H.2 hActive "/mnt/data" rfl rfl rfl
  exact ⟨rfl, rfl, rfl, H.1, H2.1, H2.2.1, H2.2.2.1, H2.2.2.2⟩

/-- C8.  The staging teardown as the promoter performs it —
`tmptgt_cleanup` followed by clearing the saved fd to -1
(hook_subdir.c lines 204-205) — does not error, is safe with a no-op
saved reference, and is idempotent: a second invocation does not error
and records no further `setns` (namespace-restore) attempt, because the
first invocation cleared the saved reference to the absent value. -/
theorem leave_staging_idempotent (env : SysEnv) (h : HookData) (w : World)
    (hns : env.ns_support = true) :
    (leave_staging_and_clear env h w).1 = 0 ∧
    (leave_staging_and_clear env (leave_staging_and_clear env h w).2.1
        (leave_staging_and_clear env h w).2.2).1 = 0 ∧
    (leave_staging_and_clear env (leave_staging_and_clear env h w).2.1
        (leave_staging_and_clear env h w).2.2).2.1.old_ns_fd = -1 ∧
    countSetns (leave_staging_and_clear env (leave_staging_and_clear env h w).2.1
        (leave_staging_and_clear env h w).2.2).2.2.trace
      = countSetns (leave_staging_and_clear env h w).2.2.trace ∧
    (h.old_ns_fd < 0 →
      countSetns (leave_staging_and_clear env h w).2.2.trace = countSetns w.trace) := by
  by_cases hfd : (0 : Int) ≤ h.old_ns_fd <;>
    simp [leave_staging_and_clear, tmptgt_cleanup, hns, hfd, countSetns_append]

theorem leave_staging_idempotent_witness :
    (envOK.ns_support = true) ∧
    (leave_staging_and_clear envOK hActive wActive).1 = 0 ∧
    (leave_staging_and_clear envOK
        (leave_staging_and_clear envOK hActive wActive).2.1
        (leave_staging_and_clear envOK hActive wActive).2.2).1 = 0 ∧
    (leave_staging_and_clear envOK
        (leave_staging_and_clear envOK hActive wActive).2.1
        (leave_staging_and_clear envOK hActive wActive).2.2).2.1.old_ns_fd = -1 ∧
    countSetns (leave_staging_and_clear envOK
        (leave_staging_and_clear envOK hActive wActive).2.1
        (leave_staging_and_clear envOK hActive wActive).2.2).2.2.trace
      = countSetns (leave_staging_and_clear envOK hActive wActive).2.2.trace := by
  have H := leave_staging_idempotent envOK hActive wActive rfl
  exact ⟨rfl, H.1, H.2.1, H.2.2.1, H.2.2.2.1⟩

/-- C7.  On success, `tmptgt_unshare` performs exactly, in order:
(1) open/save the current namespace, (2) unshare a new namespace,
(3) create the staging directory, (4) mark `MNT_RUNTIME_TOPDIR`
private, and — only when that mount call fails — (4') self-bind the
staging directory onto itself and mark that private.  Moreover the
directory-creation step is idempotent: when the staging directory
already exists, an injected mkdir failure is irrelevant (an existing
directory is not an error). -/
theorem tmptgt_unshare_step_order (env : SysEnv) (w : World) (ofd : Int) :
    ((tmptgt_unshare env ofd w).1 = 0 →
      (tmptgt_unshare env ofd w).2.2.trace
        = w.trace ++ [.openNs, .unshareNs, .mkdirP MNT_PATH_TMPTGT]
            ++ (match env.priv_topdir_err with
                | none => [.mountPriv MNT_RUNTIME_TOPDIR]
                | some _ =>
                  [.mountPriv MNT_RUNTIME_TOPDIR,
                   .mountBind MNT_PATH_TMPTGT (some MNT_PATH_TMPTGT),
                   .mountPriv MNT_PATH_TMPTGT])) ∧
    (MNT_PATH_TMPTGT ∈ w.dirs →
      tmptgt_unshare env ofd w = tmptgt_unshare { env with mkdir_err := none } ofd w) := by
  obtain ⟨ns, oe, ue, mk, pt, bs, ptm, sd, asp, snd, ah, apo, bsu, usu⟩ := env
  constructor
  · intro hrc
    unfold tmptgt_unshare at hrc ⊢
    cases ns
    · simp [ENOSYS] at hrc
    · simp only [reduceIte] at hrc ⊢
      cases oe with
      | some e =>
        simp [errnoRc_ne_zero e] at hrc
      | none =>
      cases ue with
      | some e =>
        simp [errnoRc_ne_zero e] at hrc
      | none =>
      simp only [sysOpenNs, sysUnshare, sysMkdirP] at hrc ⊢
      by_cases hdir : MNT_PATH_TMPTGT ∈ w.dirs
      · simp only [World.log, World.log_dirs, hdir, reduceIte] at hrc ⊢
        cases pt with
        | none =>
          simp [World.log, sysMountBindAdd, World.updCur]
        | some _ =>
          cases bs with
          | some e =>
            simp [errnoRc_ne_zero e] at hrc
          | none =>
          cases ptm with
          | some e =>
            simp [errnoRc_ne_zero e] at hrc
          | none =>
          simp [World.log, sysMountBindAdd, World.updCur]
      · simp only [World.log, World.log_dirs, hdir, reduceIte] at hrc ⊢
        cases mk with
        | some e =>
          simp [errnoRc_ne_zero e] at hrc
        | none =>
        cases pt with
        | none =>
          simp [World.log, sysMountBindAdd, World.updCur]
        | some _ =>
          cases bs with
          | some e =>
            simp [errnoRc_ne_zero e] at hrc
          | none =>
          cases ptm with
          | some e =>
            simp [errnoRc_ne_zero e] at hrc
          | none =>
          simp [World.log, sysMountBindAdd, World.updCur]
  · intro hdir
    unfold tmptgt_unshare
    cases ns
    · rfl
    · simp only [reduceIte]
      cases oe with
      | some e => rfl
      | none =>
      cases ue with
      | some e => rfl
      | none =>
      simp only [sysOpenNs, sysUnshare, sysMkdirP, World.log, World.log_dirs]
      cases pt <;> cases bs <;> cases ptm <;> simp [hdir, tmptgt_cleanup]

theorem count_remove_le_any (l : List (String × String)) (p q : String) :
    ((removeMountAt l q).filter (fun m => m.2 = p)).length
      ≤ (l.filter (fun m => m.2 = p)).length := by
  induction l with
  | nil => simp [removeMountAt]
  | cons m ms ih =>
    simp only [removeMountAt]
    by_cases hm : m.2 = q
    · rw [if_pos hm]
      by_cases hp : m.2 = p
      · simp only [List.filter_cons, hp, if_pos, decide_True, List.length_cons]
        omega
      · simp [List.filter_cons, hp]
    · rw [if_neg hm]
      by_cases hp : m.2 = p
      · simp only [List.filter_cons, hp, if_pos, decide_True, List.length_cons]
        omega
      · simp only [List.filter_cons, hp, decide_False, List.length_cons]
        simpa using ih

@[simp] theorem World.log_nsState (w : World) (a : SysAct) (k : Nat) :
    (w.log a).nsState k = w.nsState k := rfl

@[simp] theorem sysSetns_nsState (w : World) (fd : Int) (k : Nat) :
    (sysSetns w fd).nsState k = w.nsState k := by
  unfold World.nsState
  rw [sysSetns_nsTab]

@[simp] theorem sysClose_nsState (w : World) (fd : Int) (k : Nat) :
    (sysClose w fd).nsState k = w.nsState k := rfl

theorem updCur_nsState_le (w : World) (f : NsState → NsState) (k : Nat)
    (hf : ∀ s, countMountsAt (f s) MNT_PATH_TMPTGT ≤ countMountsAt s MNT_PATH_TMPTGT) :
    countMountsAt ((w.updCur f).nsState k) MNT_PATH_TMPTGT
      ≤ countMountsAt (w.nsState k) MNT_PATH_TMPTGT := by
  unfold World.nsState World.updCur
  simp only [assocFind_map_upd]
  by_cases hk : k = w.curNs
  · simp only [hk, if_pos rfl]
    cases assocFind w.curNs w.nsTab with
    | none => simp
    | some s => simpa using hf s
  · simp [hk]

theorem sysUmount_nsView_le (w : World) (p : String) (b : Bool) (k : Nat) :
    countMountsAt ((sysUmount w p b).2.nsState k) MNT_PATH_TMPTGT
      ≤ countMountsAt (w.nsState k) MNT_PATH_TMPTGT := by
  simp only [sysUmount]
  split
  · exact updCur_nsState_le (w.log (.umountAt p)) _ k
      (fun s => count_remove_le_any s.mounts MNT_PATH_TMPTGT p)
  · simp

theorem tmptgt_cleanup_nsView_le (env : SysEnv) (fd : Int) (w : World) (k : Nat)
    (hns : env.ns_support = true) :
    countMountsAt ((tmptgt_cleanup env fd w).2.nsState k) MNT_PATH_TMPTGT
      ≤ countMountsAt (w.nsState k) MNT_PATH_TMPTGT := by
  unfold tmptgt_cleanup
  rw [hns]
  simp only [reduceIte]
  by_cases hfd : (0 : Int) ≤ fd
  · simp only [hfd, reduceIte, sysClose_nsState, sysSetns_nsState]
    exact sysUmount_nsView_le w MNT_PATH_TMPTGT true k
  · simp only [hfd, reduceIte]
    exact sysUmount_nsView_le w MNT_PATH_TMPTGT true k

theorem tmptgt_cleanup_curNs_some (env : SysEnv) (fd : Int) (w : World) (n : Nat)
    (hns : env.ns_support = true) (hfd : 0 ≤ fd)
    (hfind : assocFind fd w.fds = some n) :
    (tmptgt_cleanup env fd w).2.curNs = n := by
  unfold tmptgt_cleanup
  rw [hns]
  simp only [reduceIte, hfd, sysClose_curNs]
  exact sysSetns_curNs_found _ fd n (by simpa using hfind)

theorem tmptgt_cleanup_curNs_neg (env : SysEnv) (fd : Int) (w : World)
    (hns : env.ns_support = true) (hfd : fd < 0) :
    (tmptgt_cleanup env fd w).2.curNs = w.curNs := by
  unfold tmptgt_cleanup
  rw [hns]
  have : ¬ (0 : Int) ≤ fd := by omega
  simp [this]

theorem updCur_nsState_ne (w : World) (f : NsState → NsState) (k : Nat)
    (hk : ¬ k = w.curNs) : (w.updCur f).nsState k = w.nsState k := by
  unfold World.updCur World.nsState
  simp only [assocFind_map_upd, hk, if_neg, if_false, reduceIte]

@[simp] theorem sysMountBindAdd_fds (w : World) (src tgt : String) :
    (sysMountBindAdd w src tgt).fds = w.fds := rfl

@[simp] theorem sysMountBindAdd_curNs (w : World) (src tgt : String) :
    (sysMountBindAdd w src tgt).curNs = w.curNs := rfl

@[simp] theorem sysMountBindAdd_nsState_ne (w : World) (src tgt : String) (k : Nat)
    (hk : ¬ k = w.curNs) :
    (sysMountBindAdd w src tgt).nsState k = w.nsState k :=
  updCur_nsState_ne w _ k hk

theorem stagingCount_cleanup_le (env1 : SysEnv) (fd : Int) (w1 : World) (k : Nat)
    (hns : env1.ns_support = true)
    (hcur : (tmptgt_cleanup env1 fd w1).2.curNs = k) :
    World.stagingCount (tmptgt_cleanup env1 fd w1).2
      ≤ countMountsAt (w1.nsState k) MNT_PATH_TMPTGT := by
  unfold World.stagingCount World.curState
  rw [hcur]
  exact tmptgt_cleanup_nsView_le env1 fd w1 k hns

/-- C3.  Whenever `tmptgt_unshare` fails — at opening the namespace
handle, unsharing, creating the staging directory, or marking it
private including the self-bind fallback — it returns a negative error
code, the process is back in the mount namespace it started in, and no
mount has been added at the staging path in the process's view
(rollback completeness).  The hypotheses `0 ≤ w.nextFd` and
`w.curNs < w.nextNs` are well-formedness of the world: file
descriptors are nonnegative and namespace ids are allocated fresh. -/
theorem tmptgt_unshare_fail_rollback (env : SysEnv) (w : World) (ofd : Int)
    (hwfd : 0 ≤ w.nextFd) (hwns : w.curNs < w.nextNs)
    (hfail : (tmptgt_unshare env ofd w).1 ≠ 0) :
    (tmptgt_unshare env ofd w).1 < 0 ∧
    (tmptgt_unshare env ofd w).2.2.curNs = w.curNs ∧
    World.stagingCount (tmptgt_unshare env ofd w).2.2 ≤ w.stagingCount := by
  have hne : ¬ (w.nextNs = w.curNs) := by omega
  have hne2 : ¬ (w.curNs = w.nextNs) := by omega
  obtain ⟨ns, oe, ue, mk, pt, bs, ptm, sd, asp, snd, ah, apo, bsu, usu⟩ := env
  unfold tmptgt_unshare at hfail ⊢
  cases ns
  · exact ⟨show -ENOSYS < 0 by norm_num [ENOSYS], rfl, le_refl _⟩
  · simp only [eq_self_iff_true, if_true] at hfail ⊢
    cases oe with
    | some e =>
      refine ⟨errnoRc_neg e, ?_, ?_⟩
      · exact tmptgt_cleanup_curNs_neg _ _ _ rfl (by decide)
      · refine le_trans (stagingCount_cleanup_le _ _ _ w.curNs rfl ?_) (le_refl _)
        exact tmptgt_cleanup_curNs_neg _ _ _ rfl (by decide)
    | none =>
    cases ue with
    | some e =>
      refine ⟨errnoRc_neg e, ?_, ?_⟩
      · exact tmptgt_cleanup_curNs_some _ _ _ _ rfl hwfd (by simp [assocFind, sysOpenNs])
      · refine le_trans (stagingCount_cleanup_le _ _ _ w.curNs rfl ?_) (le_refl _)
        exact tmptgt_cleanup_curNs_some _ _ _ _ rfl hwfd (by simp [assocFind, sysOpenNs])
    | none =>
    simp only [sysOpenNs, sysUnshare, sysMkdirP] at hfail ⊢
    by_cases hdir : MNT_PATH_TMPTGT ∈ w.dirs
    · simp only [World.log, World.log_dirs, hdir, reduceIte] at hfail ⊢
      cases pt with
      | none => simp at hfail
      | some _ =>
        cases bs with
        | some e =>
          refine ⟨errnoRc_neg e, ?_, ?_⟩
          · exact tmptgt_cleanup_curNs_some _ _ _ _ rfl hwfd (by simp [assocFind])
          · refine le_trans (stagingCount_cleanup_le _ _ _ w.curNs rfl ?_) ?_
            · exact tmptgt_cleanup_curNs_some _ _ _ _ rfl hwfd (by simp [assocFind])
            · simp [World.nsState, World.stagingCount, World.curState, assocFind, hne]
        | none =>
        cases ptm with
        | some e =>
          refine ⟨errnoRc_neg e, ?_, ?_⟩
          · exact tmptgt_cleanup_curNs_some _ _ _ _ rfl hwfd (by simp [assocFind])
          · refine le_trans (stagingCount_cleanup_le _ _ _ w.curNs rfl ?_) ?_
            · exact tmptgt_cleanup_curNs_some _ _ _ _ rfl hwfd (by simp [assocFind])
            · have hg := assocFind_map_upd w.nsTab w.nextNs w.curNs
                (fun s => { s with mounts := (MNT_PATH_TMPTGT, MNT_PATH_TMPTGT) :: s.mounts })
              simp [World.stagingCount, World.curState, World.nsState, assocFind, hne, hne2, hg]
        | none => simp at hfail
    · simp only [World.log, World.log_dirs, hdir, reduceIte] at hfail ⊢
      cases mk with
      | some e =>
        rw [if_pos (by simpa using errnoRc_ne_zero e)] at hfail ⊢
        refine ⟨errnoRc_neg e, ?_, ?_⟩
        · exact tmptgt_cleanup_curNs_some _ _ _ _ rfl hwfd (by simp [assocFind])
        · refine le_trans (stagingCount_cleanup_le _ _ _ w.curNs rfl ?_) ?_
          · exact tmptgt_cleanup_curNs_some _ _ _ _ rfl hwfd (by simp [assocFind])
          · simp [World.nsState, World.stagingCount, World.curState, assocFind, hne]
      | none =>
      cases pt with
      | none => simp at hfail
      | some _ =>
        cases bs with
        | some e =>
          refine ⟨errnoRc_neg e, ?_, ?_⟩
          · exact tmptgt_cleanup_curNs_some _ _ _ _ rfl hwfd (by simp [assocFind])
          · refine le_trans (stagingCount_cleanup_le _ _ _ w.curNs rfl ?_) ?_
            · exact tmptgt_cleanup_curNs_some _ _ _ _ rfl hwfd (by simp [assocFind])
            · simp [World.nsState, World.stagingCount, World.curState, assocFind, hne]
        | none =>
        cases ptm with
        | some e =>
          refine ⟨errnoRc_neg e, ?_, ?_⟩
          · exact tmptgt_cleanup_curNs_some _ _ _ _ rfl hwfd (by simp [assocFind])
          · refine le_trans (stagingCount_cleanup_le _ _ _ w.curNs rfl ?_) ?_
            · exact tmptgt_cleanup_curNs_some _ _ _ _ rfl hwfd (by simp [assocFind])
            · have hg := assocFind_map_upd w.nsTab w.nextNs w.curNs
                (fun s => { s with mounts := (MNT_PATH_TMPTGT, MNT_PATH_TMPTGT) :: s.mounts })
              simp [World.stagingCount, World.curState, World.nsState, assocFind, hne, hne2, hg]
        | none => simp at hfail

theorem tmptgt_unshare_step_order_witness :
    (tmptgt_unshare envOK 0 wInit).1 = 0 ∧
    (tmptgt_unshare envOK 0 wInit).2.2.trace
      = wInit.trace ++ [.openNs, .unshareNs, .mkdirP MNT_PATH_TMPTGT]
          ++ [.mountPriv MNT_RUNTIME_TOPDIR] ∧
    MNT_PATH_TMPTGT ∈ wActive.dirs ∧
    tmptgt_unshare envMkdirFail 0 wActive
      = tmptgt_unshare { envMkdirFail with mkdir_err := none } 0 wActive := by
  refine ⟨by decide, ?_, by decide, ?_⟩
  · have H := (tmptgt_unshare_step_order envOK wInit 0).1 (by decide)
    simpa [envOK] using H
  · exact (tmptgt_unshare_step_order envMkdirFail wActive 0).2 (by decide)

theorem tmptgt_unshare_fail_rollback_witness :
    ((0 : Int) ≤ wInit.nextFd) ∧ (wInit.curNs < wInit.nextNs) ∧
    ((tmptgt_unshare envOpenFail 0 wInit).1 ≠ 0) ∧
    (tmptgt_unshare envOpenFail 0 wInit).1 < 0 ∧
    (tmptgt_unshare envOpenFail 0 wInit).2.2.curNs = wInit.curNs ∧
    World.stagingCount (tmptgt_unshare envOpenFail 0 wInit).2.2
      ≤ wInit.stagingCount := by
  have H := tmptgt_unshare_fail_rollback envOpenFail wInit 0 (by decide) (by decide)
    (by decide)
  exact ⟨by decide, by decide, by decide, H.1, H.2.1, H.2.2⟩

/-- C5.  In `hook_mount_pre` with hookset data present: when the capture
of the original target fails (strdup failure or absent target), or when
`tmptgt_unshare` fails, the request's filesystem description — in
particular its target — is left unmodified and the failure's error code
is returned, aborting the mount operation. -/
theorem hook_mount_pre_fail_keeps_target (env : SysEnv) (cxt : MntContext) (w : World)
    (h : HookData) (hh : cxt.hsd = some h) :
    (env.strdup_ok = false ∨ mnt_fs_get_target cxt.fs = none →
      (hook_mount_pre env cxt w).1 = -ENOMEM ∧
      (hook_mount_pre env cxt w).2.1.fs = cxt.fs ∧
      (hook_mount_pre env cxt w).2.2 = w) ∧
    (∀ t, env.strdup_ok = true → mnt_fs_get_target cxt.fs = some t →
      (tmptgt_unshare env h.old_ns_fd w).1 ≠ 0 →
      (hook_mount_pre env cxt w).1 = (tmptgt_unshare env h.old_ns_fd w).1 ∧
      (hook_mount_pre env cxt w).1 ≠ 0 ∧
      (hook_mount_pre env cxt w).2.1.fs = cxt.fs) := by
  constructor
  · intro hcase
    have horg : (if env.strdup_ok = true then mnt_fs_get_target cxt.fs else none) = none := by
      rcases hcase with h1 | h1 <;> simp [h1]
    simp [hook_mount_pre, hh, horg, ENOMEM]
  · intro t hs ht hfail
    simp [hook_mount_pre, hh, hs, ht, hfail]

theorem hook_mount_pre_fail_keeps_target_witness :
    (cxtActive.hsd = some hActive) ∧
    ((envUnshareFail.strdup_ok = true) ∧
      mnt_fs_get_target cxtActive.fs = some "/mnt/data" ∧
      (tmptgt_unshare envUnshareFail hActive.old_ns_fd wActive).1 ≠ 0) ∧
    (hook_mount_pre envUnshareFail cxtActive wActive).1
      = (tmptgt_unshare envUnshareFail hActive.old_ns_fd wActive).1 ∧
    (hook_mount_pre envUnshareFail cxtActive wActive).1 ≠ 0 ∧
    (hook_mount_pre envUnshareFail cxtActive wActive).2.1.fs = cxtActive.fs := by
  have H := (hook_mount_pre_fail_keeps_target envUnshareFail cxtActive wActive
    hActive rfl).2 "/mnt/data" rfl rfl (by decide)
  exact ⟨rfl, ⟨rfl, rfl, by decide⟩, H.1, H.2.1, H.2.2⟩

/-- C4.  `hookset_deinit` always succeeds, removes every registered
callback of this hookset and frees the per-operation state; whenever
the namespace guard is still present (`old_ns_fd >= 0`) it first
performs exactly the cleanup of `tmptgt_cleanup` (`leave_staging`) on
the saved fd — the staging path is unmounted (first trace entry of the
cleanup) and, when the saved fd refers to the original namespace, the
process is back in that namespace afterwards. -/
theorem hookset_deinit_cleanup (env : SysEnv) (cxt : MntContext) (w : World) :
    (hookset_deinit env cxt w).1 = 0 ∧
    (hookset_deinit env cxt w).2.1.hooks = [] ∧
    (hookset_deinit env cxt w).2.1.hsd = none ∧
    (∀ h, cxt.hsd = some h → 0 ≤ h.old_ns_fd →
      (hookset_deinit env cxt w).2.2 = (tmptgt_cleanup env h.old_ns_fd w).2 ∧
      (env.ns_support = true →
        (∃ rest, (hookset_deinit env cxt w).2.2.trace
          = w.trace ++ SysAct.umountAt MNT_PATH_TMPTGT :: rest) ∧
        (∀ n, assocFind h.old_ns_fd w.fds = some n →
          (hookset_deinit env cxt w).2.2.curNs = n))) := by
  unfold hookset_deinit free_hookset_data
  cases hh : cxt.hsd with
  | none =>
    refine ⟨rfl, rfl, rfl, ?_⟩
    intro h hcontr
    simp at hcontr
  | some h0 =>
    refine ⟨rfl, rfl, rfl, ?_⟩
    intro h hsome hfd
    have heq : h0 = h := Option.some.inj hsome
    subst heq
    dsimp only
    rw [if_pos hfd]
    refine ⟨rfl, ?_⟩
    intro hns
    constructor
    · exact ⟨[.setnsTo h0.old_ns_fd, .closeFd h0.old_ns_fd],
        by simp [tmptgt_cleanup, hns, hfd]⟩
    · intro n hfind
      exact tmptgt_cleanup_curNs_some env h0.old_ns_fd w n hns hfd hfind

theorem hookset_deinit_cleanup_witness :
    (cxtActive.hsd = some hActive) ∧ ((0 : Int) ≤ hActive.old_ns_fd) ∧
    (envOK.ns_support = true) ∧
    (assocFind hActive.old_ns_fd wActive.fds = some 0) ∧
    (hookset_deinit envOK cxtActive wActive).1 = 0 ∧
    (hookset_deinit envOK cxtActive wActive).2.1.hooks = [] ∧
    (hookset_deinit envOK cxtActive wActive).2.1.hsd = none ∧
    (hookset_deinit envOK cxtActive wActive).2.2
      = (tmptgt_cleanup envOK hActive.old_ns_fd wActive).2 ∧
    (hookset_deinit envOK cxtActive wActive).2.2.curNs = 0 := by
  have H := hookset_deinit_cleanup envOK cxtActive wActive
  have H4 := H.2.2.2 hActive rfl (by decide)
  exact ⟨rfl, by decide, rfl, by decide, H.1, H.2.1, H.2.2.1, H4.1,
    (H4.2 rfl).2 0 (by decide)⟩

theorem do_mount_subdir_spec (env : SysEnv) (root sub : String)
    (target : Option String) (w : World) (hasp : env.asprintf_ok = true) :
    (do_mount_subdir env root sub target w).2.trace
      = w.trace ++ [.mountBind (root ++ "/" ++ sub) target, .umountAt root] ∧
    ((do_mount_subdir env root sub target w).1 = 0 ∨
      (do_mount_subdir env root sub target w).1 = -MNT_ERR_APPLYFLAGS) ∧
    countSetns (do_mount_subdir env root sub target w).2.trace
      = countSetns w.trace := by
  unfold do_mount_subdir
  rw [hasp]
  cases target with
  | none =>
    simp only [reduceIte, sysUmount]
    split <;> simp [countSetns_append]
  | some t =>
    cases hb : env.bind_subdir_ok <;>
      simp only [reduceIte, hb, Bool.false_eq_true, if_false, if_true, sysUmount,
        sysMountBindAdd] <;>
      split <;>
      simp [countSetns_append]

theorem tmptgt_cleanup_trace_ext (env : SysEnv) (fd : Int) (w : World) :
    ∃ tl, (tmptgt_cleanup env fd w).2.trace = w.trace ++ tl := by
  unfold tmptgt_cleanup
  cases hns : env.ns_support
  · exact ⟨[], by simp⟩
  · by_cases hfd : (0 : Int) ≤ fd
    · exact ⟨[.umountAt MNT_PATH_TMPTGT, .setnsTo fd, .closeFd fd], by simp [hfd]⟩
    · exact ⟨[.umountAt MNT_PATH_TMPTGT], by simp [hfd]⟩

/-- C1 (amended).  In `hook_mount_post` with active per-operation state:
both promotion steps — the recursive bind of `staging_root/subdir` onto
the original target and the unmount of the staging root — are always
attempted, in this order, even when the bind fails; if either step
fails the call returns `-MNT_ERR_APPLYFLAGS` and returns IMMEDIATELY:
the namespace cleanup is NOT performed in this call (no `setns` is
attempted) and the saved namespace reference stays active, leaving the
cleanup to the lifecycle deinit.  Only on success does the call run
`tmptgt_cleanup` and clear the saved reference to inactive (-1). -/
theorem hook_mount_post_promote (env : SysEnv) (cxt : MntContext) (w : World)
    (h : HookData) (f : MntFs) (sub : String)
    (hh : cxt.hsd = some h) (hsub : h.subdir = some sub) (hfs : cxt.fs = some f)
    (hasp : env.asprintf_ok = true) :
    (∃ rest, (hook_mount_post env cxt w).2.2.trace
      = w.trace ++ SysAct.mountBind (MNT_PATH_TMPTGT ++ "/" ++ sub) h.org_target
          :: SysAct.umountAt MNT_PATH_TMPTGT :: rest) ∧
    ((hook_mount_post env cxt w).1 ≠ 0 →
      (hook_mount_post env cxt w).1 = -MNT_ERR_APPLYFLAGS ∧
      (hook_mount_post env cxt w).2.1.hsd = some h ∧
      countSetns (hook_mount_post env cxt w).2.2.trace = countSetns w.trace) ∧
    ((hook_mount_post env cxt w).1 = 0 →
      (hook_mount_post env cxt w).2.1.hsd = some { h with old_ns_fd := -1 } ∧
      (hook_mount_post env cxt w).2.2
        = (tmptgt_cleanup env h.old_ns_fd
            (do_mount_subdir env MNT_PATH_TMPTGT sub h.org_target w).2).2) := by
  have hspec := do_mount_subdir_spec env MNT_PATH_TMPTGT sub h.org_target w hasp
  have htgt : mnt_fs_get_target (mnt_fs_set_target cxt.fs h.org_target)
      = h.org_target := by
    rw [hfs]
    rfl
  unfold hook_mount_post
  simp only [hh, hsub, htgt]
  by_cases hrc : (do_mount_subdir env MNT_PATH_TMPTGT sub h.org_target w).1 = 0
  · rw [if_neg (by simpa using hrc)]
    refine ⟨?_, ?_, ?_⟩
    · obtain ⟨tl, htl⟩ := tmptgt_cleanup_trace_ext env h.old_ns_fd
        (do_mount_subdir env MNT_PATH_TMPTGT sub h.org_target w).2
      refine ⟨tl, ?_⟩
      simp only [htl, hspec.1]
      simp
    · intro hbad
      simp at hbad
    · intro _
      exact ⟨rfl, rfl⟩
  · rw [if_pos (by simpa using hrc)]
    refine ⟨?_, ?_, ?_⟩
    · exact ⟨[], by simpa using hspec.1⟩
    · intro _
      refine ⟨?_, rfl, ?_⟩
      · rcases hspec.2.1 with h0 | h0
        · exact absurd h0 hrc
        · exact h0
      · exact hspec.2.2
    · intro hbad
      exact absurd hbad hrc

/-- C1, counterexample to the claim as stated: with active state
(saved fd 3, subdir `export`, original target `/mnt/data`) and a
failing bind, `hook_mount_post` returns the ApplyFlagsFailed error but
does NOT perform the namespace cleanup: no `setns` is recorded, the
process stays in namespace 1, and the saved reference still holds 3
(not cleared to the inactive value -1) — contradicting "the namespace
cleanup still proceeds and the saved reference is cleared to
inactive". -/
theorem hook_mount_post_bind_fail_no_cleanup :
    (hook_mount_post envBindFail cxtActive wActive).1 = -MNT_ERR_APPLYFLAGS ∧
    (hook_mount_post envBindFail cxtActive wActive).2.1.hsd = some hActive ∧
    (hook_mount_post envBindFail cxtActive wActive).2.2.curNs = 1 ∧
    countSetns (hook_mount_post envBindFail cxtActive wActive).2.2.trace = 0 ∧
    hActive.old_ns_fd = 3 := by
  refine ⟨?_, ?_, ?_, ?_, ?_⟩ <;> rfl

theorem hook_mount_post_promote_witness :
    (cxtActive.hsd = some hActive) ∧ (hActive.subdir = some "export") ∧
    (cxtActive.fs = some fsData) ∧ (envBindFail.asprintf_ok = true) ∧
    (∃ rest, (hook_mount_post envBindFail cxtActive wActive).2.2.trace
      = wActive.trace ++ SysAct.mountBind (MNT_PATH_TMPTGT ++ "/" ++ "export")
          hActive.org_target
          :: SysAct.umountAt MNT_PATH_TMPTGT :: rest) ∧
    ((hook_mount_post envBindFail cxtActive wActive).1 = -MNT_ERR_APPLYFLAGS ∧
      (hook_mount_post envBindFail cxtActive wActive).2.1.hsd = some hActive ∧
      countSetns (hook_mount_post envBindFail cxtActive wActive).2.2.trace
        = countSetns wActive.trace) := by
  have H := hook_mount_post_promote envBindFail cxtActive wActive hActive fsData
    "export" rfl rfl rfl rfl
  exact ⟨rfl, rfl, rfl, rfl, H.1, H.2.1 (by decide)⟩

theorem sysUmount_nsState_ne (w : World) (p : String) (b : Bool) (k : Nat)
    (hk : ¬ k = w.curNs) :
    (sysUmount w p b).2.nsState k = w.nsState k := by
  simp only [sysUmount]
  split
  · exact updCur_nsState_ne _ _ _ hk
  · rfl

theorem tmptgt_cleanup_nsState_ne (env : SysEnv) (fd : Int) (w : World) (k : Nat)
    (hk : ¬ k = w.curNs) :
    (tmptgt_cleanup env fd w).2.nsState k = w.nsState k := by
  unfold tmptgt_cleanup
  cases env.ns_support
  · rfl
  · by_cases hfd : (0 : Int) ≤ fd <;>
      simp [hfd, sysUmount_nsState_ne _ _ _ _ hk]

theorem do_mount_subdir_fds (env : SysEnv) (root sub : String) (target : Option String)
    (w : World) : (do_mount_subdir env root sub target w).2.fds = w.fds := by
  unfold do_mount_subdir
  cases env.asprintf_ok
  · rfl
  · cases target <;> simp <;> split <;> simp

theorem do_mount_subdir_curNs (env : SysEnv) (root sub : String) (target : Option String)
    (w : World) : (do_mount_subdir env root sub target w).2.curNs = w.curNs := by
  unfold do_mount_subdir
  cases env.asprintf_ok
  · rfl
  · cases target <;> simp <;> split <;> simp

theorem do_mount_subdir_nsState_ne (env : SysEnv) (root sub : String)
    (target : Option String) (w : World) (k : Nat) (hk : ¬ k = w.curNs) :
    (do_mount_subdir env root sub target w).2.nsState k = w.nsState k := by
  unfold do_mount_subdir
  cases env.asprintf_ok
  · rfl
  · cases target with
    | none =>
      simp only [reduceIte]
      rw [sysUmount_nsState_ne _ _ _ _ (by simpa using hk)]
      rfl
    | some t =>
      cases hb : env.bind_subdir_ok
      · simp only [reduceIte, hb, Bool.false_eq_true, if_false]
        rw [sysUmount_nsState_ne _ _ _ _ (by simpa using hk)]
        rfl
      · simp only [reduceIte, hb, if_true]
        rw [sysUmount_nsState_ne _ _ _ _ (by simpa using hk)]
        rw [sysMountBindAdd_nsState_ne _ _ _ _ (by simpa using hk)]
        rfl

theorem engine_mount_fds (source : String) (cxt : MntContext) (w : World) :
    (engine_mount source cxt w).fds = w.fds := by
  unfold engine_mount
  cases mnt_fs_get_target cxt.fs <;> simp

theorem engine_mount_curNs (source : String) (cxt : MntContext) (w : World) :
    (engine_mount source cxt w).curNs = w.curNs := by
  unfold engine_mount
  cases mnt_fs_get_target cxt.fs <;> simp

theorem engine_mount_nsState_ne (source : String) (cxt : MntContext) (w : World)
    (k : Nat) (hk : ¬ k = w.curNs) :
    (engine_mount source cxt w).nsState k = w.nsState k := by
  unfold engine_mount
  cases mnt_fs_get_target cxt.fs with
  | none => rfl
  | some t =>
    rw [sysMountBindAdd_nsState_ne _ _ _ _ (by simpa using hk)]
    rfl

theorem contains_append_self (l : List Stage) (a : Stage) :
    (l ++ [a]).contains a = true := by
  induction l with
  | nil => simp [List.contains]
  | cons b l ih => simpa [List.contains] using Or.inr ih

theorem tmptgt_unshare_success (env : SysEnv) (w : World) (ofd : Int)
    (hrc : (tmptgt_unshare env ofd w).1 = 0) :
    env.ns_support = true ∧
    (tmptgt_unshare env ofd w).2.1 = w.nextFd ∧
    (tmptgt_unshare env ofd w).2.2.curNs = w.nextNs ∧
    (tmptgt_unshare env ofd w).2.2.fds = (w.nextFd, w.curNs) :: w.fds ∧
    (∀ k, ¬ k = w.nextNs →
      (tmptgt_unshare env ofd w).2.2.nsState k = w.nsState k) := by
  obtain ⟨ns, oe, ue, mk, pt, bs, ptm, sd, asp, snd, ah, apo, bsu, usu⟩ := env
  unfold tmptgt_unshare at hrc ⊢
  cases ns
  · simp [ENOSYS] at hrc
  · simp only [eq_self_iff_true, if_true] at hrc ⊢
    refine ⟨by trivial, ?_⟩
    cases oe with
    | some e => simp [errnoRc_ne_zero e] at hrc
    | none =>
    cases ue with
    | some e => simp [errnoRc_ne_zero e] at hrc
    | none =>
    simp only [sysOpenNs, sysUnshare, sysMkdirP, World.log_dirs, World.log_fds,
      World.log_curNs, World.log_nsTab, World.log_nextNs, World.log_nextFd] at hrc ⊢
    have hif : ¬((0 : Int) ≠ 0) := by simp
    by_cases hdir : MNT_PATH_TMPTGT ∈ w.dirs
    · simp only [hdir, reduceIte] at hrc ⊢
      rw [if_neg hif] at hrc ⊢
      cases pt with
      | none =>
        refine ⟨rfl, by simp, by simp, ?_⟩
        intro k hk
        have hk2 : ¬ (w.nextNs = k) := fun he => hk he.symm
        simp [World.nsState, assocFind, hk2]
      | some _ =>
        cases bs with
        | some e => simp [errnoRc_ne_zero e] at hrc
        | none =>
        cases ptm with
        | some e => simp [errnoRc_ne_zero e] at hrc
        | none =>
        refine ⟨rfl, by simp, by simp, ?_⟩
        intro k hk
        have hk2 : ¬ (w.nextNs = k) := fun he => hk he.symm
        rw [World.log_nsState, sysMountBindAdd_nsState_ne _ _ _ _ (by simpa using hk)]
        simp [World.nsState, assocFind, hk2]
    · simp only [hdir, reduceIte] at hrc ⊢
      cases mk with
      | some e => simp [errnoRc_ne_zero e] at hrc
      | none =>
      rw [if_neg hif] at hrc ⊢
      cases pt with
      | none =>
        refine ⟨rfl, by simp, by simp, ?_⟩
        intro k hk
        have hk2 : ¬ (w.nextNs = k) := fun he => hk he.symm
        simp [World.nsState, assocFind, hk2]
      | some _ =>
        cases bs with
        | some e => simp [errnoRc_ne_zero e] at hrc
        | none =>
        cases ptm with
        | some e => simp [errnoRc_ne_zero e] at hrc
        | none =>
        refine ⟨rfl, by simp, by simp, ?_⟩
        intro k hk
        have hk2 : ¬ (w.nextNs = k) := fun he => hk he.symm
        rw [World.log_nsState, sysMountBindAdd_nsState_ne _ _ _ _ (by simpa using hk)]
        simp [World.nsState, assocFind, hk2]

/-- C6.  For every operation that completes the full pipeline
successfully with the subdir directive staged and promoted, the
process's final mount namespace equals the namespace it was in before
`enter_staging` (the pre-mount stage), the staging path carries no
mount in the process's final view, and the request's reported target
equals the original target captured before redirection.  The
hypotheses `0 ≤ w.nextFd` and `¬ w.curNs = w.nextNs` are
well-formedness of the world (nonnegative fds, fresh namespace ids);
`World.stagingCount w = 0` says nothing was mounted on the staging
path to begin with. -/
theorem subdir_pipeline_restores (env : SysEnv) (source : String) (cxt : MntContext)
    (w : World) (f : MntFs) (t sub : String)
    (hfs : cxt.fs = some f) (ht : f.target = some t)
    (hact : cxt.action = .act_mount) (hflag : cxt.xfstabcomm = true)
    (hhsd : cxt.hsd = none)
    (hreq : is_subdir_required env cxt.fs = (true, 0, some sub))
    (hwfd : 0 ≤ w.nextFd) (hwns : ¬ w.curNs = w.nextNs)
    (hstage : World.stagingCount w = 0)
    (hrun : (run_pipeline env source cxt w).1 = 0) :
    (run_pipeline env source cxt w).2.2.curNs = w.curNs ∧
    World.stagingCount (run_pipeline env source cxt w).2.2 = 0 ∧
    mnt_fs_get_target (run_pipeline env source cxt w).2.1.fs = some t := by
  have hget : mnt_fs_get_target cxt.fs = some t := by
    simp [mnt_fs_get_target, hfs, ht]
  have hif : ¬ ((0 : Int) ≠ 0) := by simp
  unfold run_pipeline at hrun ⊢
  cases hal : env.alloc_hsd_ok
  · have hprep : hook_prepare_target env cxt = (-ENOMEM, cxt) := by
      unfold hook_prepare_target
      simp [hget, hact, hflag, hreq, hal]
    simp [hprep, ENOMEM] at hrun
  cases hap : env.append_ok
  · have hprep : hook_prepare_target env cxt
        = (-ENOMEM, { cxt with
            hsd := some { subdir := some sub, org_target := none, old_ns_fd := 0 } }) := by
      unfold hook_prepare_target
      simp [hget, hact, hflag, hreq, hal, hap]
    simp [hprep, ENOMEM] at hrun
  have hprep : hook_prepare_target env cxt
      = (0, { cxt with
          hsd := some { subdir := some sub, org_target := none, old_ns_fd := 0 },
          hooks := cxt.hooks ++ [.mount_pre] }) := by
    unfold hook_prepare_target
    simp [hget, hact, hflag, hreq, hal, hap]
  rw [hprep] at hrun ⊢
  rw [if_neg hif] at hrun ⊢
  simp only [contains_append_self, eq_self_iff_true, if_true] at hrun ⊢
  cases hsd0 : env.strdup_ok
  · have hpre1 : (hook_mount_pre env { cxt with hsd := some { subdir := some sub, org_target := none, old_ns_fd := 0 }, hooks := cxt.hooks ++ [.mount_pre] } w).1 = -ENOMEM := by
      unfold hook_mount_pre
      simp [hsd0, ENOMEM]
    simp [hpre1, ENOMEM] at hrun
  by_cases hS : (tmptgt_unshare env 0 w).1 = 0
  case neg =>
    have hpre1 : (hook_mount_pre env { cxt with hsd := some { subdir := some sub, org_target := none, old_ns_fd := 0 }, hooks := cxt.hooks ++ [.mount_pre] } w).1 = (tmptgt_unshare env 0 w).1 := by
      unfold hook_mount_pre
      simp [hsd0, hget, hS]
    simp [hpre1, hS] at hrun
  case pos =>
  obtain ⟨hns, hfd1, hcur1, hfds1, hpres1⟩ := tmptgt_unshare_success env w 0 hS
  have hpre : hook_mount_pre env { cxt with hsd := some { subdir := some sub, org_target := none, old_ns_fd := 0 }, hooks := cxt.hooks ++ [.mount_pre] } w = (0, { fs := mnt_fs_set_target cxt.fs (some MNT_PATH_TMPTGT), action := cxt.action, xfstabcomm := cxt.xfstabcomm, hooks := (cxt.hooks ++ [Stage.mount_pre]) ++ [Stage.mount_post], hsd := some { subdir := some sub, org_target := some t, old_ns_fd := w.nextFd } }, (tmptgt_unshare env 0 w).2.2) := by
    unfold hook_mount_pre
    simp [hsd0, hget, hS, hap, hfd1]
  rw [hpre] at hrun ⊢
  rw [if_neg hif] at hrun ⊢
  simp only [contains_append_self, eq_self_iff_true, if_true] at hrun ⊢
  set cxt2 : MntContext := { fs := mnt_fs_set_target cxt.fs (some MNT_PATH_TMPTGT), action := cxt.action, xfstabcomm := cxt.xfstabcomm, hooks := (cxt.hooks ++ [Stage.mount_pre]) ++ [Stage.mount_post], hsd := some { subdir := some sub, org_target := some t, old_ns_fd := w.nextFd } } with hcxt2
  have hc2hsd : cxt2.hsd
      = some { subdir := some sub, org_target := some t, old_ns_fd := w.nextFd } := by
    rw [hcxt2]
  have hc2tgt : mnt_fs_get_target (mnt_fs_set_target cxt2.fs (some t)) = some t := by
    rw [hcxt2]
    simp [hfs, mnt_fs_set_target, mnt_fs_get_target]
  by_cases hdo : (do_mount_subdir env MNT_PATH_TMPTGT sub (some t) (engine_mount source cxt2 (tmptgt_unshare env 0 w).2.2)).1 = 0
  case neg =>
    have hpost1 : (hook_mount_post env cxt2 (engine_mount source cxt2 (tmptgt_unshare env 0 w).2.2)).1 = (do_mount_subdir env MNT_PATH_TMPTGT sub (some t) (engine_mount source cxt2 (tmptgt_unshare env 0 w).2.2)).1 := by
      unfold hook_mount_post
      simp [hc2hsd, hc2tgt, hdo]
    simp [hpost1, hdo] at hrun
  case pos =>
  have hfind : assocFind w.nextFd (do_mount_subdir env MNT_PATH_TMPTGT sub (some t) (engine_mount source cxt2 (tmptgt_unshare env 0 w).2.2)).2.fds = some w.curNs := by
    rw [do_mount_subdir_fds, engine_mount_fds, hfds1]
    simp [assocFind]
  have hkR : ¬ w.curNs = (do_mount_subdir env MNT_PATH_TMPTGT sub (some t) (engine_mount source cxt2 (tmptgt_unshare env 0 w).2.2)).2.curNs := by
    rw [do_mount_subdir_curNs, engine_mount_curNs, hcur1]
    exact hwns
  have hpostw : (hook_mount_post env cxt2 (engine_mount source cxt2 (tmptgt_unshare env 0 w).2.2)).2.2 = (tmptgt_cleanup env w.nextFd (do_mount_subdir env MNT_PATH_TMPTGT sub (some t) (engine_mount source cxt2 (tmptgt_unshare env 0 w).2.2)).2).2 := by
    unfold hook_mount_post
    simp [hc2hsd, hc2tgt, hdo]
  have hpostfs : (hook_mount_post env cxt2 (engine_mount source cxt2 (tmptgt_unshare env 0 w).2.2)).2.1.fs = mnt_fs_set_target cxt2.fs (some t) := by
    unfold hook_mount_post
    simp [hc2hsd, hc2tgt, hdo]
  refine ⟨?_, ?_, ?_⟩
  · rw [hpostw]
    exact tmptgt_cleanup_curNs_some env w.nextFd _ w.curNs hns hwfd hfind
  · rw [hpostw]
    unfold World.stagingCount World.curState
    rw [tmptgt_cleanup_curNs_some env w.nextFd _ w.curNs hns hwfd hfind]
    rw [tmptgt_cleanup_nsState_ne env w.nextFd _ w.curNs hkR]
    rw [do_mount_subdir_nsState_ne env MNT_PATH_TMPTGT sub (some t) _ w.curNs (by rw [engine_mount_curNs, hcur1]; exact hwns)]
    rw [engine_mount_nsState_ne source _ _ w.curNs (by rw [hcur1]; exact hwns)]
    rw [hpres1 w.curNs hwns]
    exact hstage
  · rw [hpostfs, hcxt2]
    simp [hfs, mnt_fs_set_target, mnt_fs_get_target]

theorem subdir_pipeline_restores_witness :
    (run_pipeline envOK "/dev/sdb1" cxtData wInit).1 = 0 ∧
    (run_pipeline envOK "/dev/sdb1" cxtData wInit).2.2.curNs = wInit.curNs ∧
    World.stagingCount (run_pipeline envOK "/dev/sdb1" cxtData wInit).2.2 = 0 ∧
    mnt_fs_get_target (run_pipeline envOK "/dev/sdb1" cxtData wInit).2.1.fs
      = some "/mnt/data" := by
  have H := subdir_pipeline_restores envOK "/dev/sdb1" cxtData wInit fsData
    "/mnt/data" "export" rfl rfl rfl rfl rfl (by decide) (by decide) (by decide)
    (by decide) (by decide)
  exact ⟨by decide, H.1, H.2.1, H.2.2⟩
